import Mathlib

set_option maxRecDepth 100000

/-!
Verification development for the CloudClip clipboard synchronization
extension.  The definitions below are a shallow embedding of the sync
module (`src/lib/sync.js`, concatenated into `src/lib/device.js` in this
snapshot), the redaction module (`src/lib/redaction.js`), the
configuration (`src/config.js`) and the background service worker
(`src/background/background.js`, first/latest variant, the one using the
promise-singleton `initPromise`).

Modelling conventions:
* JavaScript numbers used as timestamps (`Date.now()`, `created_at`) are
  modelled as `Int` (epoch milliseconds); ISO-8601 date strings compare
  exactly like the timestamps they encode, so the `created_at` ordering is
  preserved by this choice.
* 32-bit signed integer wrap-around (`| 0`, `<< 5`, `& hash`) is modelled
  with explicit `% 2^32` arithmetic on `Int`.
* Strings are modelled as Lean `String`/`List Char`; `charCodeAt` is the
  character code (identical to the UTF-16 unit for all BMP characters).
* Asynchronous effects are modelled by explicit state passing; the event
  loop (timers, promises) is modelled as an explicit transition system.
-/

/-! ## Configuration (`src/config.js`, `CONFIG.SYNC`) -/

/-- CONFIG.SYNC.DEBOUNCE_MS. -/
def DEBOUNCE_MS : Nat := 1000

/-- CONFIG.SYNC.MAX_ITEMS: maximum items kept in the visible cache. -/
def MAX_ITEMS : Nat := 50

/-- CONFIG.SYNC.RATE_LIMIT_WINDOW_MS. -/
def RATE_LIMIT_WINDOW_MS : Int := 60000

/-- CONFIG.SYNC.RATE_LIMIT_MAX_REQUESTS. -/
def RATE_LIMIT_MAX_REQUESTS : Nat := 30

/-- CONFIG.SYNC.RETRY_ATTEMPTS. -/
def RETRY_ATTEMPTS : Nat := 3

/-- CONFIG.SYNC.RETRY_BASE_DELAY_MS. -/
def RETRY_BASE_DELAY_MS : Nat := 1000

/-! ## Data model: clipboard items -/

/-- A clipboard item as stored in the local cache / returned by the
server (`clipboard_items` row or the locally built pending record of
`addPendingCachedItem`).  `created_at` is the timestamp in epoch
milliseconds. -/
structure Item where
  id : String
  content : String
  origin : String
  page_title : String
  created_at : Int
  pending : Bool
  device_id : String
  device_name : String
deriving DecidableEq

/-- Comparator order used by the JS sort callback
`(a, b) => new Date(b.created_at) - new Date(a.created_at)`:
`a` comes before `b` exactly when `b.created_at ≤ a.created_at`
(descending by `created_at`). -/
def createdDesc (a b : Item) : Prop := b.created_at ≤ a.created_at

instance : DecidableRel createdDesc :=
  fun a b => inferInstanceAs (Decidable (b.created_at ≤ a.created_at))

instance : IsTotal Item createdDesc :=
  ⟨fun a b => le_total b.created_at a.created_at⟩

instance : IsTrans Item createdDesc :=
  ⟨fun _ _ _ hab hbc => le_trans hbc hab⟩

/-! ## Rate limiter (`checkRateLimit` / `incrementRateLimit`, sync module) -/

/-- Mutable module state `rateLimitState = {requestCount, windowStart}`. -/
structure RateLimitState where
  requestCount : Nat
  windowStart : Int
deriving DecidableEq

/-- checkRateLimit: resets the window if expired, then admits while the
counter is below the configured maximum.  Returns the admission decision
together with the (possibly reset) state, mirroring the in-place mutation
of `rateLimitState`. -/
def checkRateLimit (now : Int) (s : RateLimitState) : Bool × RateLimitState :=
  let s1 := if now - s.windowStart > RATE_LIMIT_WINDOW_MS then
      { requestCount := 0, windowStart := now } else s
  (decide (s1.requestCount < RATE_LIMIT_MAX_REQUESTS), s1)

/-- incrementRateLimit: `rateLimitState.requestCount++`. -/
def incrementRateLimit (s : RateLimitState) : RateLimitState :=
  { s with requestCount := s.requestCount + 1 }

/-- One admission check followed (on success) by recording the admission,
the way `performUpload` uses the limiter: `checkRateLimit` gates the
upload and `incrementRateLimit` records it. -/
def admitRecord (now : Int) (s : RateLimitState) : Bool × RateLimitState :=
  let r := checkRateLimit now s
  if r.1 then (true, incrementRateLimit r.2) else (false, r.2)

/-- Folds a list of admission attempts (at the given times) through the
limiter, counting how many were admitted. -/
def runAdmissions : List Int → RateLimitState → Nat × RateLimitState
  | [], s => (0, s)
  | t :: ts, s =>
    let r := admitRecord t s
    let rest := runAdmissions ts r.2
    ((if r.1 then 1 else 0) + rest.1, rest.2)

/-! ## Merge (`mergeWithLocalCache`, sync module) -/

/-- JS `Map.prototype.set` keyed by `item.id` on an insertion-ordered
association list: overwrite in place if the key exists, else append. -/
def jsMapSet (m : List Item) (it : Item) : List Item :=
  if m.any (fun j => j.id == it.id) then
    m.map (fun j => if j.id == it.id then it else j)
  else m ++ [it]

/-- JS `Map.prototype.has` keyed by `item.id`. -/
def jsMapHas (m : List Item) (id : String) : Bool :=
  m.any (fun j => j.id == id)

/-- Second loop of `mergeWithLocalCache`: a cached item is added only if
its id is not in the map and it is marked `pending`. -/
def cachedFoldStep (m : List Item) (it : Item) : List Item :=
  if jsMapHas m it.id = false ∧ it.pending = true then jsMapSet m it else m

/-- mergeWithLocalCache: server items are inserted into the map first
(authoritative), then pending cached items with fresh ids, and the values
are sorted by `created_at` descending.  The JS engine's stable sort is
modelled by the stable `insertionSort` with the same comparator order. -/
def mergeWithLocalCache (serverItems cachedItems : List Item) : List Item :=
  let itemMap := cachedItems.foldl cachedFoldStep (serverItems.foldl jsMapSet [])
  List.insertionSort createdDesc itemMap

/-! ## Cache writes in the background worker (`background.js`) -/

/-- The list expression shared by `addPendingCachedItem`,
`handleClipboardCopied` (success path) and the realtime INSERT handler of
`setupRealtimeSubscription`:
`[item, ...cached.filter(i => i.id !== item.id)].slice(0, CONFIG.SYNC.MAX_ITEMS)`. -/
def prependCapped (item : Item) (cached : List Item) : List Item :=
  (item :: cached.filter (fun i => i.id != item.id)).take MAX_ITEMS

/-- Payload of a `CLIPBOARD_COPIED` message (`{content, url, timestamp}`,
plus the optional fields read by `addPendingCachedItem`).  `none` models
an absent (undefined) field. -/
structure Payload where
  content : String
  url : Option String
  origin : Option String
  pageTitle : Option String
  timestamp : Option Int

/-- JavaScript `a || b || 'unknown'` over the optional string fields:
an absent field and the empty string are both falsy. -/
def jsOrString (a b : Option String) (d : String) : String :=
  match a with
  | some s => if s = "" then (match b with
      | some t => if t = "" then d else t
      | none => d) else s
  | none => match b with
      | some t => if t = "" then d else t
      | none => d

/-- The pending record built by `addPendingCachedItem`.  `freshId` stands
for `crypto.randomUUID()`; `payload.timestamp ? … : new Date()` makes a
zero timestamp fall back to `now` (0 is falsy in JS). -/
def mkPendingItem (p : Payload) (freshId : String) (now : Int)
    (deviceId deviceName : String) : Item :=
  { id := freshId
    content := p.content
    origin := jsOrString p.url p.origin "unknown"
    page_title := (p.pageTitle).getD ""
    created_at := match p.timestamp with
      | some t => if t = 0 then now else t
      | none => now
    pending := true
    device_id := deviceId
    device_name := deviceName }

/-- addPendingCachedItem: builds the pending record and stores
`[item, ...cached.filter(i => i.id !== item.id)].slice(0, MAX_ITEMS)`.
Returns the built item together with the new stored list. -/
def addPendingCachedItem (p : Payload) (freshId : String) (now : Int)
    (deviceId deviceName : String) (cached : List Item) : Item × List Item :=
  let item := mkPendingItem p freshId now deviceId deviceName
  (item, prependCapped item cached)

/-- The realtime INSERT callback of `setupRealtimeSubscription` updates
the cache with the same prepend-and-cap expression. -/
def realtimeInsertUpdate (item : Item) (cached : List Item) : List Item :=
  prependCapped item cached

/-- Result object `{success, item?, error?}` returned by
`uploadClipboardItem` / `performUpload`. -/
structure UploadResult where
  success : Bool
  item : Option Item := none
  error : Option String := none
deriving DecidableEq

/-- Environment of one `handleClipboardCopied` run: the auto-capture
setting, the outcome of the (refresh-enhanced) authentication check, and
the result `uploadClipboardItem` would return if called. -/
structure CaptureEnv where
  autoCapture : Bool
  authenticated : Bool
  uploadResult : UploadResult
  deviceId : String
  deviceName : String

/-- Response of `handleClipboardCopied` (`{success, pending?, error?}`;
on the authenticated path the upload result object itself is returned). -/
structure CaptureResponse where
  success : Bool
  pending : Bool := false
  error : Option String := none
  item : Option Item := none

/-- handleClipboardCopied (first background.js variant): bail out when
auto-capture is off; when unauthenticated, cache a pending record; when
authenticated, upload, and on success cache the confirmed item, on
failure fall back to a pending record.  Returns the response together
with the stored cache list. -/
def handleClipboardCopied (env : CaptureEnv) (p : Payload) (freshId : String)
    (now : Int) (cached : List Item) : CaptureResponse × List Item :=
  if env.autoCapture = false then
    ({ success := false, error := some "Auto-capture disabled" }, cached)
  else if env.authenticated = false then
    let r := addPendingCachedItem p freshId now env.deviceId env.deviceName cached
    ({ success := true, pending := true }, r.2)
  else
    let result := env.uploadResult
    if result.success then
      match result.item with
      | some it =>
        ({ success := true, item := some it }, prependCapped it cached)
      | none => ({ success := true }, cached)
    else
      let r := addPendingCachedItem p freshId now env.deviceId env.deviceName cached
      ({ success := false, error := result.error }, r.2)

/-! ## Promise-singleton initialization (`initialize`, background.js) -/

/-- State of the service worker module: `initPromise` holds the id of the
memoized in-flight promise (or `none` for `null`); `nextHandle` generates
fresh promise identities; `bodyRuns` counts how many times the
side-effecting async setup body has been started. -/
structure SWInitState where
  initPromise : Option Nat
  nextHandle : Nat
  bodyRuns : Nat
deriving DecidableEq

/-- initialize(): `if (initPromise) return initPromise;` otherwise start
the setup body once and memoize its promise.  Returns the promise handle
the caller awaits, together with the new module state. -/
def initializeSW (s : SWInitState) : Nat × SWInitState :=
  match s.initPromise with
  | some h => (h, s)
  | none =>
    (s.nextHandle,
     { initPromise := some s.nextHandle
       nextHandle := s.nextHandle + 1
       bodyRuns := s.bodyRuns + 1 })

/-- The catch branch of the setup body: `initPromise = null; throw err`
(the memoized handle is cleared when the initialization fails). -/
def initFailure (s : SWInitState) : SWInitState :=
  { s with initPromise := none }

/-- A burst of `n` consecutive `initialize()` calls, collecting the
promise handle each caller receives. -/
def initializeCalls : Nat → SWInitState → List Nat × SWInitState
  | 0, s => ([], s)
  | n + 1, s =>
    let r := initializeSW s
    let rest := initializeCalls n r.2
    (r.1 :: rest.1, rest.2)

/-! ## Retry with exponential backoff (`retryWithBackoff`, sync module) -/

/-- An exception value as thrown inside `performUpload`:
`{message, status?}`. -/
structure JsError where
  message : String
  status : Option Nat
deriving DecidableEq

/-- Whether `pat` occurs contiguously at the head of `s`. -/
def listStartsWith : List Char → List Char → Bool
  | [], _ => true
  | _ :: _, [] => false
  | p :: ps, c :: cs => p == c && listStartsWith ps cs

/-- Whether `pat` occurs contiguously anywhere in `s`
(JS `String.prototype.includes`). -/
def listHasRun (pat : List Char) : List Char → Bool
  | [] => listStartsWith pat []
  | c :: cs => listStartsWith pat (c :: cs) || listHasRun pat cs

/-- The auth-failure test of `retryWithBackoff`:
`err.message?.includes('auth') || err.status === 401`. -/
def isAuthError (e : JsError) : Bool :=
  listHasRun "auth".toList e.message.toList || e.status == some 401

/-- Observable outcome of `retryWithBackoff`: the resolved value or the
propagated error (`none` models the `undefined` `lastError` when the
attempt count is zero), the number of times `fn` was invoked, and the
backoff delays awaited, in order. -/
structure RetryOutcome (α : Type) where
  result : Except (Option JsError) α
  calls : Nat
  delays : List Nat

/-- The retry loop body: attempt `i` with `remaining` iterations left.
`fn k` is the outcome of the `k`-th invocation (0-based).  A failing
attempt records the delay `RETRY_BASE_DELAY_MS * 2^i` awaited before the
next loop iteration (the source sleeps even after the final attempt,
before falling out of the loop). -/
def retryLoop {α : Type} (fn : Nat → Except JsError α) (i : Nat)
    (last : Option JsError) : Nat → RetryOutcome α
  | 0 => ⟨.error last, 0, []⟩
  | remaining + 1 =>
    match fn i with
    | .ok a => ⟨.ok a, 1, []⟩
    | .error e =>
      if isAuthError e then ⟨.error (some e), 1, []⟩
      else
        let rest := retryLoop fn (i + 1) (some e) remaining
        ⟨rest.result, rest.calls + 1, (RETRY_BASE_DELAY_MS * 2 ^ i) :: rest.delays⟩

/-- retryWithBackoff with the configured attempt count. -/
def retryWithBackoff {α : Type} (fn : Nat → Except JsError α)
    (attempts : Nat := RETRY_ATTEMPTS) : RetryOutcome α :=
  retryLoop fn 0 none attempts

/-! ## Content fingerprint (`hashContent`, redaction module) -/

/-- ToInt32: reduce an integer to the 32-bit signed range, as `& hash`
and `<< 5` do in JS. -/
def toInt32 (n : Int) : Int := (n + 2 ^ 31) % 2 ^ 32 - 2 ^ 31

/-- One loop iteration of `hashContent`:
`hash = ((hash << 5) - hash) + char; hash = hash & hash`. -/
def hashStep (h : Int) (c : Char) : Int :=
  toInt32 (toInt32 (h * 32) - h + c.toNat)

/-- Digit character for `Number.prototype.toString(36)`
(0-9 then lowercase a-z). -/
def base36Char (d : Nat) : Char :=
  if d < 10 then Char.ofNat (48 + d) else Char.ofNat (87 + d)

/-- Base-36 digit expansion (fuelled; `fuel ≥ n` suffices). -/
def base36Aux : Nat → Nat → List Char
  | 0, _ => []
  | _ + 1, 0 => []
  | fuel + 1, n => base36Aux fuel (n / 36) ++ [base36Char (n % 36)]

/-- JS `n.toString(36)` for a non-negative integer. -/
def toBase36 (n : Nat) : String :=
  if n = 0 then "0" else String.mk (base36Aux n n)

/-- hashContent: empty content hashes to the empty string; otherwise the
32-bit rolling hash of the character codes, rendered as
`Math.abs(hash).toString(36)`. -/
def hashContent (content : String) : String :=
  if content = "" then ""
  else toBase36 (content.data.foldl hashStep 0).natAbs

/-! ## Redaction engine (`src/lib/redaction.js` and `CONFIG.REDACTION`)

The three pattern families are modelled by direct matchers implementing
the JS regex semantics (leftmost match, greedy quantifiers with
backtracking, ASCII `\b`/`\d`/`\w`, JS `\s`).  In these particular
patterns every optional separator class `[-\s]?` and every `\s*` is
immediately followed by an atom whose character set is disjoint from the
class, so the greedy choice never needs to be revisited; the only real
backtracking — the `{3,4}` repetition against the trailing `\d{1,4}\b`
of the card pattern — is implemented explicitly. -/

/-- JS `\s`: whitespace characters (ASCII controls, NBSP, Unicode space
separators, BOM). -/
def isJsSpace (c : Char) : Bool :=
  c = ' ' || c = '\t' || c = '\n' || c = '\r' ||
  c.toNat = 11 || c.toNat = 12 || c.toNat = 0xA0 || c.toNat = 0x1680 ||
  (0x2000 ≤ c.toNat && c.toNat ≤ 0x200A) || c.toNat = 0x2028 ||
  c.toNat = 0x2029 || c.toNat = 0x202F || c.toNat = 0x205F ||
  c.toNat = 0x3000 || c.toNat = 0xFEFF

/-- The separator class `[-\s]`. -/
def isSepCh (c : Char) : Bool := c = '-' || isJsSpace c

/-- JS `\w` (non-unicode mode): ASCII letters, digits and underscore. -/
def isWordCh (c : Char) : Bool := c.isAlpha || c.isDigit || c = '_'

/-- Whether the character preceding the match position is a word
character (`none` = start of string). -/
def prevIsWord (prev : Option Char) : Bool :=
  match prev with
  | some p => isWordCh p
  | none => false

/-- Whether a `\b` holds after a digit, given the following character
(`none` = end of string). -/
def boundaryAfter (next : Option Char) : Bool :=
  match next with
  | some c => !isWordCh c
  | none => true

/-- Consume exactly `n` digits (`\d{n}`), returning the rest. -/
def takeDigits : Nat → List Char → Option (List Char)
  | 0, s => some s
  | _ + 1, [] => none
  | n + 1, c :: cs => if c.isDigit then takeDigits n cs else none

/-- Consume an optional separator (`[-\s]?`).  The next atom is always a
digit, which is never a separator, so the greedy choice is forced. -/
def eatOptSep (s : List Char) : List Char :=
  match s with
  | c :: cs => if isSepCh c then cs else s
  | [] => []

/-- Matcher for `SSN_PATTERN = /\b\d{3}[-\s]?\d{2}[-\s]?\d{4}\b/g`,
returning the length of the match starting at this position. -/
def matchSSN (prev : Option Char) (s : List Char) : Option Nat :=
  if prevIsWord prev then none
  else
    match takeDigits 3 s with
    | none => none
    | some r1 =>
      let r2 := eatOptSep r1
      match takeDigits 2 r2 with
      | none => none
      | some r3 =>
        let r4 := eatOptSep r3
        match takeDigits 4 r4 with
        | none => none
        | some r5 =>
          if boundaryAfter r5.head? then some (s.length - r5.length) else none

/-- Parse `k` repetitions of `(?:\d{4}[-\s]?)`. -/
def ccReps : Nat → List Char → Option (List Char)
  | 0, s => some s
  | k + 1, s =>
    match takeDigits 4 s with
    | none => none
    | some r1 => ccReps k (eatOptSep r1)

/-- Parse the trailing `\d{1,4}\b`, greedily trying the longest digit
run first and backtracking on a failed boundary. -/
def ccFinalAux : Nat → List Char → Option Nat
  | 0, _ => none
  | t + 1, s =>
    match takeDigits (t + 1) s with
    | some rest =>
      if boundaryAfter rest.head? then some (t + 1) else ccFinalAux t s
    | none => ccFinalAux t s

/-- Attempt the card pattern body with exactly `k` repetitions. -/
def matchCCWith (k : Nat) (s : List Char) : Option Nat :=
  match ccReps k s with
  | none => none
  | some rest =>
    match ccFinalAux 4 rest with
    | some m => some (s.length - rest.length + m)
    | none => none

/-- Matcher for `CC_PATTERN = /\b(?:\d{4}[-\s]?){3,4}\d{1,4}\b/g`.  The
greedy `{3,4}` tries four repetitions first. -/
def matchCC (prev : Option Char) (s : List Char) : Option Nat :=
  if prevIsWord prev then none
  else
    match matchCCWith 4 s with
    | some n => some n
    | none => matchCCWith 3 s

/-- Consume a case-insensitive literal (patterns carry the `i` flag). -/
def eatLitCI : List Char → List Char → Option (List Char)
  | [], s => some s
  | _ :: _, [] => none
  | p :: ps, c :: cs => if c.toLower = p then eatLitCI ps cs else none

/-- Count and strip the longest run of characters satisfying `p`. -/
def spanCount (p : Char → Bool) : List Char → Nat × List Char
  | [] => (0, [])
  | c :: cs =>
    if p c then
      let r := spanCount p cs
      (r.1 + 1, r.2)
    else (0, c :: cs)

/-- The credential keys of `PASSWORD_PATTERNS`; `apiKey` stands for the
pattern `api[_-]?key`. -/
inductive KeySpec
  | plain (key : String)
  | apiKey
deriving DecidableEq

/-- Consume the key part of a credential pattern.  In `api[_-]?key` the
optional class is never a `k`, so the greedy choice is forced. -/
def matchKeyLit : KeySpec → List Char → Option (List Char)
  | .plain k, s => eatLitCI k.toList s
  | .apiKey, s =>
    match eatLitCI "api".toList s with
    | none => none
    | some r1 =>
      let r2 := match r1 with
        | c :: cs => if c = '_' || c = '-' then cs else r1
        | [] => r1
      eatLitCI "key".toList r2

/-- Matcher for a credential pattern `key\s*[:=]\s*\S+` (flags `gi`).
The `\s*` runs are forced maximal because `[:=]` and `\S` exclude
whitespace; the final `\S+` is maximal because the pattern ends there. -/
def matchKV (ks : KeySpec) (_prev : Option Char) (s : List Char) : Option Nat :=
  match matchKeyLit ks s with
  | none => none
  | some r1 =>
    let r2 := (spanCount isJsSpace r1).2
    match r2 with
    | [] => none
    | c :: cs =>
      if c = ':' || c = '=' then
        let r4 := (spanCount isJsSpace cs).2
        let r5 := spanCount (fun d => !isJsSpace d) r4
        if r5.1 = 0 then none else some (s.length - r5.2.length)
      else none

/-- A segment of the global-replace scan: an unmatched character or a
matched span. -/
inductive Seg
  | lit (c : Char)
  | matched (cs : List Char)
deriving DecidableEq

/-- The characters of a segment. -/
def segChars : Seg → List Char
  | .lit c => [c]
  | .matched cs => cs

/-- Concatenation of the segments. -/
def segsJoin (l : List Seg) : List Char :=
  l.foldr (fun seg acc => segChars seg ++ acc) []

/-- Global scan of `String.prototype.replace` with a `/g` regex: try the
matcher at each position from the left; on a match consume it and
continue just after it, otherwise advance one character.  Fuelled
structurally; `fuel = s.length` suffices since matches are nonempty. -/
def gscanF (m : Option Char → List Char → Option Nat) :
    Nat → Option Char → List Char → List Seg
  | 0, _, s => s.map Seg.lit
  | _ + 1, _, [] => []
  | fuel + 1, prev, c :: cs =>
    match m prev (c :: cs) with
    | some n =>
      if 0 < n then
        let pre := (c :: cs).take n
        Seg.matched pre :: gscanF m fuel pre.getLast? ((c :: cs).drop n)
      else Seg.lit c :: gscanF m fuel (some c) cs
    | none => Seg.lit c :: gscanF m fuel (some c) cs

/-- Global scan of a whole string. -/
def gscan (m : Option Char → List Char → Option Nat) (s : List Char) : List Seg :=
  gscanF m s.length none s

/-- Replace every match with `f match` and keep the rest. -/
def globalReplace (m : Option Char → List Char → Option Nat)
    (f : List Char → List Char) (s : List Char) : List Char :=
  segsJoin ((gscan m s).map (fun seg => match seg with
    | .lit c => Seg.lit c
    | .matched cs => Seg.matched (f cs)))

/-- `RegExp.prototype.test` on a `/g` regex with `lastIndex` reset:
true exactly when some match exists. -/
def hasMatchIn (m : Option Char → List Char → Option Nat) (s : List Char) : Bool :=
  (gscan m s).any (fun seg => match seg with
    | .matched _ => true
    | .lit _ => false)

/-- The list of matches of the global scan, in order. -/
def matchesOf (m : Option Char → List Char → Option Nat) (s : List Char) :
    List (List Char) :=
  (gscan m s).filterMap (fun seg => match seg with
    | .matched cs => some cs
    | .lit _ => none)

/-- CONFIG.REDACTION.REPLACEMENT. -/
def REPLACEMENT : List Char := "[REDACTED]".toList

/-- The callback body `match.replace(/[-\s]/g, '')`. -/
def stripSeps (cs : List Char) : List Char := cs.filter (fun c => !isSepCh c)

/-- The doubled-digit adjustment of the Luhn loop. -/
def luhnDouble (d : Nat) : Nat :=
  let t := d * 2
  if t > 9 then t - 9 else t

/-- The Luhn accumulation over the digits in last-to-first order, with
the `isEven` flag toggling each step (false at the last digit). -/
def luhnAux : List Nat → Bool → Nat
  | [], _ => 0
  | d :: ds, even => (if even then luhnDouble d else d) + luhnAux ds (!even)

/-- luhnCheck of `redaction.js`. -/
def luhnCheck (digits : List Char) : Bool :=
  luhnAux (digits.map (fun c => c.toNat - 48)).reverse false % 10 = 0

/-- The all-same-digit test `/^(.)\1+$/` (needs at least two characters,
all equal to the first). -/
def allSameRun : List Char → Bool
  | [] => false
  | c :: cs => !cs.isEmpty && cs.all (fun d => d == c)

/-- isValidCreditCardFormat: length 13–19, not an all-identical run, and
Luhn-valid. -/
def isValidCreditCardFormat (digits : List Char) : Bool :=
  if digits.length < 13 || digits.length > 19 then false
  else if allSameRun digits then false
  else luhnCheck digits

/-- The SSN step of `redactSensitiveData`: test, then replace every
match by the sentinel. -/
def ssnStage (s0 : List Char) : List Char :=
  if hasMatchIn matchSSN s0 then
    globalReplace matchSSN (fun _ => REPLACEMENT) s0
  else s0

/-- The card step: replace each match whose digit content passes
`isValidCreditCardFormat` by the sentinel (pushing the tag once per such
match — there is no containment guard in the source), and return other
matches unchanged. -/
def ccApply (s : List Char) : List Char × List String :=
  let segs := gscan matchCC s
  (segsJoin (segs.map (fun seg => match seg with
      | .lit c => Seg.lit c
      | .matched cs =>
        Seg.matched (if isValidCreditCardFormat (stripSeps cs) then REPLACEMENT else cs))),
   segs.filterMap (fun seg => match seg with
      | .matched cs =>
        if isValidCreditCardFormat (stripSeps cs) then some "credit_card" else none
      | .lit _ => none))

/-- Return object of `redactSensitiveData`. -/
structure Redacted where
  redacted : String
  wasRedacted : Bool
  redactionTypes : List String
deriving DecidableEq

/-- CONFIG.REDACTION.PASSWORD_PATTERNS, in order. -/
def passwordKeys : List KeySpec :=
  [.plain "password", .plain "pwd", .plain "secret", .apiKey, .plain "token"]

/-- One iteration of the password loop: test, replace, and push the
`password` tag unless already present. -/
def pwStep (acc : List Char × List String) (ks : KeySpec) : List Char × List String :=
  let s := acc.1
  let types := acc.2
  if hasMatchIn (matchKV ks) s then
    (globalReplace (matchKV ks) (fun _ => REPLACEMENT) s,
     if types.contains "password" then types else types ++ ["password"])
  else (s, types)

/-- Tags pushed by the SSN stage. -/
def ssnTags (s0 : List Char) : List String :=
  if hasMatchIn matchSSN s0 then ["ssn"] else []

/-- The SSN stage followed by the card stage.  As in the source, the
card `test` runs on the ORIGINAL content while the replacement runs on
the SSN-redacted text. -/
def redactStage2 (s0 : List Char) : List Char × List String :=
  let s1 := ssnStage s0
  if hasMatchIn matchCC s0 then
    (let r := ccApply s1; (r.1, ssnTags s0 ++ r.2))
  else (s1, ssnTags s0)

/-- redactSensitiveData: SSN stage, card stage, then the password
patterns. -/
def redactSensitiveData (content : String) : Redacted :=
  let r3 := passwordKeys.foldl pwStep (redactStage2 content.toList)
  ⟨String.mk r3.1, !r3.2.isEmpty, r3.2⟩

/-- truncateContent (`redaction.js`): cut at `maxLength` characters and
append the truncation marker. -/
def truncateContent (content : String) (maxLength : Nat := 10000) : String × Bool :=
  if content.length ≤ maxLength then (content, false)
  else (String.mk (content.toList.take maxLength) ++ "... [truncated]", true)

/-! ## Upload pipeline (`uploadClipboardItem` / `performUpload`, sync module) -/

/-- Module state of the sync module relevant to uploading:
`recentlyUploaded` (the loop-prevention guard; membership models a
fingerprint whose 5-second TTL has not yet expired) and the rate
limiter. -/
structure SyncState where
  recentlyUploaded : List String
  rateLimit : RateLimitState
deriving DecidableEq

/-- A network request issued against the remote store. -/
inductive RemoteCall
  | dedupSelect (contentHash : String)
  | insertRow (contentHash : String) (content : String)
deriving DecidableEq

/-- Environment of one `performUpload` run: the session, device
identity, the answer of the dedup query, and the outcome of each insert
attempt (indexed by retry attempt). -/
structure PerformEnv where
  session : Option String
  deviceId : String
  deviceName : String
  dupExists : Bool
  insertResult : Nat → Except JsError Item

/-- performUpload: require a session, truncate and redact, query the
store for a duplicate, then insert with retry.  On success the
fingerprint is added to `recentlyUploaded` (with its TTL timer) and a
rate-limiter admission is recorded.  Also returns the remote calls
made. -/
def performUpload (content contentHash : String) (env : PerformEnv)
    (s : SyncState) : UploadResult × SyncState × List RemoteCall :=
  match env.session with
  | none => (⟨false, none, some "Not authenticated"⟩, s, [])
  | some _ =>
    let redacted := (redactSensitiveData (truncateContent content).1).redacted
    let calls := [RemoteCall.dedupSelect contentHash]
    if env.dupExists then
      (⟨false, none, some "Duplicate content"⟩, s, calls)
    else
      let r := retryWithBackoff env.insertResult RETRY_ATTEMPTS
      let calls2 := calls ++ List.replicate r.calls (RemoteCall.insertRow contentHash redacted)
      match r.result with
      | .ok item =>
        (⟨true, some item, none⟩,
         { recentlyUploaded := contentHash :: s.recentlyUploaded
           rateLimit := incrementRateLimit s.rateLimit },
         calls2)
      | .error e =>
        (⟨false, none, some (match e with
           | some err => err.message
           | none => "undefined")⟩, s, calls2)

/-- Synchronous outcome of one `uploadClipboardItem` call: either a
result returned (a resolved promise) or a debounce timer scheduled for
the fingerprint, with the returned promise still unresolved. -/
inductive UploadCallOutcome
  | immediate (r : UploadResult)
  | deferredTimer (contentHash : String)
deriving DecidableEq

/-- uploadClipboardItem: reject empty content, short-circuit on the
recently-uploaded guard (before any network call), check the rate
limiter (whose window reset persists), then either schedule the debounce
timer (`skipDebounce = false`) or run `performUpload` directly. -/
def uploadClipboardItem (content : String) (skipDebounce : Bool) (now : Int)
    (env : PerformEnv) (s : SyncState) :
    UploadCallOutcome × SyncState × List RemoteCall :=
  if content.data.all isJsSpace then
    (.immediate ⟨false, none, some "Empty content"⟩, s, [])
  else
    let contentHash := hashContent content
    if contentHash ∈ s.recentlyUploaded then
      (.immediate ⟨false, none, some "Duplicate content (upload loop prevention)"⟩, s, [])
    else
      let rl := checkRateLimit now s.rateLimit
      let s1 := { s with rateLimit := rl.2 }
      if rl.1 = false then
        (.immediate ⟨false, none, some "Rate limit exceeded"⟩, s1, [])
      else if skipDebounce = false then
        (.deferredTimer contentHash, s1, [])
      else
        let r := performUpload content contentHash env s1
        (.immediate r.1, r.2.1, r.2.2)

/-! ## Debounce timers and promise resolution (event-loop model)

The `skipDebounce = false` branch of `uploadClipboardItem` creates a
promise whose `resolve` is captured only by a `setTimeout` callback
registered in `debounceTimers`, keyed by the content fingerprint; a
later call with the same fingerprint clears that timer.  The states
below model the event loop: pending timers (each holding the promise it
would resolve), and the set of promises that have been resolved. -/

/-- Event-loop state: pending debounce timers `(timerId, contentHash,
promiseId)` (the `debounceTimers` map holds at most one per hash),
fresh-id counters, and the ids of resolved promises. -/
structure DebounceState where
  timers : List (Nat × String × Nat)
  nextTimerId : Nat
  nextPromiseId : Nat
  resolved : List Nat
deriving DecidableEq

/-- The `clearTimeout(debounceTimers.get(contentHash))` part of the
debounce branch: drop the pending timer for this fingerprint. -/
def clearTimerFor (hash : String) (ts : List (Nat × String × Nat)) :
    List (Nat × String × Nat) :=
  ts.filter (fun t => t.2.1 != hash)

/-- The debounce branch of `uploadClipboardItem`: clear any existing
timer for the fingerprint and register a new timer that resolves a fresh
promise.  Returns the promise id handed back to the caller. -/
def scheduleDebounced (hash : String) (s : DebounceState) : Nat × DebounceState :=
  (s.nextPromiseId,
   { timers := (s.nextTimerId, hash, s.nextPromiseId) :: clearTimerFor hash s.timers
     nextTimerId := s.nextTimerId + 1
     nextPromiseId := s.nextPromiseId + 1
     resolved := s.resolved })

/-- Firing of a pending timer: the callback removes itself from
`debounceTimers`, runs `performUpload` and resolves its promise.  Firing
an id that was cleared is a no-op. -/
def fireTimer (tid : Nat) (s : DebounceState) : DebounceState :=
  match s.timers.find? (fun t => t.1 == tid) with
  | some t =>
    { s with timers := s.timers.filter (fun u => u.1 != tid)
             resolved := t.2.2 :: s.resolved }
  | none => s

/-- Events the event loop can process after a scheduling call:
another debounced upload, a timer firing, or `clearPendingUploads`. -/
inductive DebounceEvent
  | sched (hash : String)
  | fire (tid : Nat)
  | clearAllTimers

/-- One event-loop step. -/
def debounceStep (s : DebounceState) : DebounceEvent → DebounceState
  | .sched h => (scheduleDebounced h s).2
  | .fire tid => fireTimer tid s
  | .clearAllTimers => { s with timers := [] }

/-- Run a sequence of event-loop events. -/
def runDebounce (events : List DebounceEvent) (s : DebounceState) : DebounceState :=
  events.foldl debounceStep s

/-- A promise id that no pending timer will ever resolve: it is not
carried by any timer, not already resolved, and below the fresh-id
counter (so no future timer can carry it either). -/
def promiseDetached (p : Nat) (s : DebounceState) : Prop :=
  (∀ t ∈ s.timers, t.2.2 ≠ p) ∧ p ∉ s.resolved ∧ p < s.nextPromiseId

/-- Fifty-one distinct server rows (more than `MAX_ITEMS`), used to
exercise `mergeWithLocalCache` on an over-full server answer. -/
def c8Server : List Item :=
  (List.range 51).map (fun i =>
    ⟨String.mk (List.replicate i (Char.ofNat 97)), "c", "o", "", 0, false, "d", "n"⟩)

/-! ## Theorems -/

/-- Helper: a burst of calls against a memoized in-flight promise all
return that promise and leave the module state untouched. -/
theorem initializeCalls_memoized (n : Nat) (s : SWInitState) (h : Nat)
    (hs : s.initPromise = some h) :
    initializeCalls n s = (List.replicate n h, s) := by
  induction n with
  | zero => simp [initializeCalls]
  | succ n ih =>
    simp only [initializeCalls, initializeSW, hs, ih]
    simp [List.replicate_succ]

/-- C2: every `initialize()` call made while an initialization is in
flight or after it completed returns the same memoized promise handle
and does not re-run the setup body; a first call from the cleared state
starts the body exactly once for the whole burst; a failed
initialization clears the memoized handle, so the next call re-runs the
setup body from scratch. -/
theorem c2_initialize_promise_singleton :
    (∀ (s : SWInitState) (h n : Nat), s.initPromise = some h →
      initializeCalls n s = (List.replicate n h, s))
  ∧ (∀ (s : SWInitState) (n : Nat), s.initPromise = none →
      initializeCalls (n + 1) s =
        (List.replicate (n + 1) s.nextHandle,
         { initPromise := some s.nextHandle
           nextHandle := s.nextHandle + 1
           bodyRuns := s.bodyRuns + 1 }))
  ∧ (∀ s : SWInitState, (initFailure s).initPromise = none ∧
      (initializeSW (initFailure s)).2.bodyRuns = s.bodyRuns + 1) := by
  refine ⟨fun s h n hs => initializeCalls_memoized n s h hs, fun s n hs => ?_, fun s => ?_⟩
  · simp only [initializeCalls, initializeSW, hs]
    rw [initializeCalls_memoized n _ s.nextHandle rfl]
    simp [List.replicate_succ]
  · exact ⟨rfl, rfl⟩

/-- Witness for C2 at concrete states. -/
theorem c2_witness :
    initializeCalls 3 ⟨some 7, 8, 1⟩ = ([7, 7, 7], ⟨some 7, 8, 1⟩)
  ∧ initializeCalls 2 ⟨none, 5, 0⟩ = ([5, 5], ⟨some 5, 6, 1⟩)
  ∧ (initFailure ⟨some 5, 6, 1⟩).initPromise = none
  ∧ (initializeSW (initFailure ⟨some 5, 6, 1⟩)).2.bodyRuns = 2 :=
  ⟨c2_initialize_promise_singleton.1 ⟨some 7, 8, 1⟩ 7 3 rfl,
   c2_initialize_promise_singleton.2.1 ⟨none, 5, 0⟩ 1 rfl,
   (c2_initialize_promise_singleton.2.2 ⟨some 5, 6, 1⟩).1,
   (c2_initialize_promise_singleton.2.2 ⟨some 5, 6, 1⟩).2⟩

/-- Helper: inside one window (no admission time past the window), the
number of admitted requests of any run is bounded by what is left of the
quota, and the window start never moves. -/
theorem runAdmissions_bound (times : List Int) (s : RateLimitState)
    (h : ∀ t ∈ times, t - s.windowStart ≤ RATE_LIMIT_WINDOW_MS) :
    (runAdmissions times s).1 ≤ RATE_LIMIT_MAX_REQUESTS - s.requestCount ∧
    (runAdmissions times s).2.windowStart = s.windowStart := by
  induction times generalizing s with
  | nil => simp [runAdmissions]
  | cons t ts ih =>
    have ht : ¬ (t - s.windowStart > RATE_LIMIT_WINDOW_MS) :=
      not_lt.mpr (h t (List.mem_cons_self t ts))
    have hts : ∀ u ∈ ts, u - s.windowStart ≤ RATE_LIMIT_WINDOW_MS :=
      fun u hu => h u (List.mem_cons_of_mem t hu)
    by_cases hc : s.requestCount < RATE_LIMIT_MAX_REQUESTS
    · have hstep : admitRecord t s = (true, incrementRateLimit s) := by
        simp [admitRecord, checkRateLimit, if_neg ht, hc]
      have heq : runAdmissions (t :: ts) s =
          (1 + (runAdmissions ts (incrementRateLimit s)).1,
           (runAdmissions ts (incrementRateLimit s)).2) := by
        simp [runAdmissions, hstep]
      have hih := ih (incrementRateLimit s) (by simpa [incrementRateLimit] using hts)
      rw [heq]
      refine ⟨?_, ?_⟩
      · have h1 := hih.1
        have hcount : (incrementRateLimit s).requestCount = s.requestCount + 1 := rfl
        omega
      · simpa [incrementRateLimit] using hih.2
    · have hstep : admitRecord t s = (false, s) := by
        simp [admitRecord, checkRateLimit, if_neg ht, hc]
      have heq : runAdmissions (t :: ts) s =
          (0 + (runAdmissions ts s).1, (runAdmissions ts s).2) := by
        simp [runAdmissions, hstep]
      have hih := ih s hts
      rw [heq]
      exact ⟨by omega, hih.2⟩

/-- C3: once the configured maximum number of admissions has been
recorded inside the current window, the next `checkRateLimit` returns
false; a run of admission attempts whose times stay inside the window
admits at most what is left of the quota (so never more than
`RATE_LIMIT_MAX_REQUESTS` in a single window); and as soon as
`now - windowStart` exceeds the window the counter and window start are
reset before evaluation, so `checkRateLimit` returns true again. -/
theorem c3_rate_limiter (s : RateLimitState) (now : Int) (times : List Int) :
    (now - s.windowStart ≤ RATE_LIMIT_WINDOW_MS →
      RATE_LIMIT_MAX_REQUESTS ≤ s.requestCount →
      (checkRateLimit now s).1 = false)
  ∧ (now - s.windowStart > RATE_LIMIT_WINDOW_MS →
      (checkRateLimit now s).1 = true ∧
      (checkRateLimit now s).2 = { requestCount := 0, windowStart := now })
  ∧ ((∀ t ∈ times, t - s.windowStart ≤ RATE_LIMIT_WINDOW_MS) →
      (runAdmissions times s).1 ≤ RATE_LIMIT_MAX_REQUESTS - s.requestCount) := by
  refine ⟨fun hin hfull => ?_, fun hexp => ?_, fun hall => (runAdmissions_bound times s hall).1⟩
  · simp [checkRateLimit, if_neg (not_lt.mpr hin)]
    omega
  · constructor
    · simp [checkRateLimit, if_pos hexp, RATE_LIMIT_MAX_REQUESTS]
    · simp [checkRateLimit, if_pos hexp]

/-- Witness for C3 at concrete states and times. -/
theorem c3_witness :
    (checkRateLimit 1000 ⟨30, 0⟩).1 = false
  ∧ (checkRateLimit 70000 ⟨30, 0⟩).1 = true
  ∧ (checkRateLimit 70000 ⟨30, 0⟩).2 = ⟨0, 70000⟩
  ∧ (runAdmissions [1, 2, 3] ⟨0, 0⟩).1 ≤ RATE_LIMIT_MAX_REQUESTS - 0 :=
  ⟨(c3_rate_limiter ⟨30, 0⟩ 1000 []).1 (by decide) (by decide),
   ((c3_rate_limiter ⟨30, 0⟩ 70000 []).2.1 (by decide)).1,
   ((c3_rate_limiter ⟨30, 0⟩ 70000 []).2.1 (by decide)).2,
   (c3_rate_limiter ⟨0, 0⟩ 0 [1, 2, 3]).2.2 (by decide)⟩

/-- C6: with the configured attempt count, a function failing once with
a non-auth error and then succeeding resolves successfully after exactly
one base-delay backoff and two invocations; an auth-flagged failure
(message containing `auth` or status 401) propagates immediately after a
single invocation; a function that always fails with non-auth errors is
invoked exactly `RETRY_ATTEMPTS` times with delays doubling from the
base delay, after which the last error propagates. -/
theorem c6_retry_backoff {α : Type} (fn : Nat → Except JsError α) (e : JsError)
    (a : α) (errs : Nat → JsError) :
    (fn 0 = .error e → isAuthError e = false → fn 1 = .ok a →
      retryWithBackoff fn RETRY_ATTEMPTS = ⟨.ok a, 2, [RETRY_BASE_DELAY_MS]⟩)
  ∧ (fn 0 = .error e → isAuthError e = true →
      retryWithBackoff fn RETRY_ATTEMPTS = ⟨.error (some e), 1, []⟩)
  ∧ ((∀ i, fn i = .error (errs i)) → (∀ i, isAuthError (errs i) = false) →
      retryWithBackoff fn RETRY_ATTEMPTS =
        ⟨.error (some (errs 2)), RETRY_ATTEMPTS, [1000, 2000, 4000]⟩) := by
  refine ⟨fun h0 hna h1 => ?_, fun h0 ha => ?_, fun hf hna => ?_⟩
  · simp [retryWithBackoff, RETRY_ATTEMPTS, retryLoop, h0, hna, h1,
      RETRY_BASE_DELAY_MS]
  · simp [retryWithBackoff, RETRY_ATTEMPTS, retryLoop, h0, ha]
  · simp [retryWithBackoff, RETRY_ATTEMPTS, retryLoop, hf 0, hf 1, hf 2,
      hna 0, hna 1, hna 2, RETRY_BASE_DELAY_MS]

/-- Witness for C6 with concrete functions and errors. -/
theorem c6_witness :
    retryWithBackoff (fun i => if i = 0 then .error ⟨"network down", none⟩ else .ok 42)
      RETRY_ATTEMPTS = ⟨.ok 42, 2, [RETRY_BASE_DELAY_MS]⟩
  ∧ retryWithBackoff (fun _ => (.error ⟨"auth failed", none⟩ : Except JsError Nat))
      RETRY_ATTEMPTS = ⟨.error (some ⟨"auth failed", none⟩), 1, []⟩
  ∧ retryWithBackoff (fun _ => (.error ⟨"boom", some 500⟩ : Except JsError Nat))
      RETRY_ATTEMPTS = ⟨.error (some ⟨"boom", some 500⟩), RETRY_ATTEMPTS, [1000, 2000, 4000]⟩ :=
  ⟨(c6_retry_backoff _ ⟨"network down", none⟩ 42 (fun _ => ⟨"", none⟩)).1
      rfl (by decide) rfl,
   (c6_retry_backoff _ ⟨"auth failed", none⟩ 0 (fun _ => ⟨"", none⟩)).2.1
      rfl (by decide),
   (c6_retry_backoff _ ⟨"", none⟩ 0 (fun _ => ⟨"boom", some 500⟩)).2.2
      (fun _ => rfl) (fun _ => by decide)⟩

/-- Helper: the prepend-and-cap cache write always keeps the new item at
the head of the stored list. -/
theorem head_prependCapped (item : Item) (cached : List Item) :
    (prependCapped item cached).head? = some item := rfl

/-- C1: with auto-capture enabled, `handleClipboardCopied` stores a
locally visible pending record (via `addPendingCachedItem`) both when
the authentication check fails and when the authenticated upload attempt
returns `success = false`; the stored record sits at the head of the
cache, carries `pending = true` and the captured content, so the payload
is never discarded. -/
theorem c1_capture_pending_fallback (env : CaptureEnv) (p : Payload)
    (freshId : String) (now : Int) (cached : List Item)
    (hac : env.autoCapture = true) :
    (env.authenticated = false →
      (handleClipboardCopied env p freshId now cached).2.head? =
        some (mkPendingItem p freshId now env.deviceId env.deviceName))
  ∧ (env.authenticated = true → env.uploadResult.success = false →
      (handleClipboardCopied env p freshId now cached).2.head? =
        some (mkPendingItem p freshId now env.deviceId env.deviceName))
  ∧ (mkPendingItem p freshId now env.deviceId env.deviceName).pending = true
  ∧ (mkPendingItem p freshId now env.deviceId env.deviceName).content = p.content := by
  refine ⟨fun hna => ?_, fun ha hf => ?_, rfl, rfl⟩
  · simp [handleClipboardCopied, hac, hna, addPendingCachedItem, head_prependCapped]
  · simp [handleClipboardCopied, hac, ha, hf, addPendingCachedItem, head_prependCapped]

/-- Witness for C1: a concrete unauthenticated capture and a concrete
failed authenticated upload both leave the pending record at the head of
the cache. -/
theorem c1_witness :
    (handleClipboardCopied ⟨true, false, ⟨false, none, none⟩, "dev", "dn"⟩
        ⟨"hello", some "https://x", none, none, some 5⟩ "id1" 99 []).2.head? =
      some (mkPendingItem ⟨"hello", some "https://x", none, none, some 5⟩ "id1" 99 "dev" "dn")
  ∧ (handleClipboardCopied ⟨true, true, ⟨false, none, some "Rate limit exceeded"⟩, "dev", "dn"⟩
        ⟨"hello", some "https://x", none, none, some 5⟩ "id1" 99 []).2.head? =
      some (mkPendingItem ⟨"hello", some "https://x", none, none, some 5⟩ "id1" 99 "dev" "dn")
  ∧ (mkPendingItem ⟨"hello", some "https://x", none, none, some 5⟩ "id1" 99 "dev" "dn").pending = true :=
  ⟨(c1_capture_pending_fallback ⟨true, false, ⟨false, none, none⟩, "dev", "dn"⟩
      ⟨"hello", some "https://x", none, none, some 5⟩ "id1" 99 [] rfl).1 rfl,
   (c1_capture_pending_fallback ⟨true, true, ⟨false, none, some "Rate limit exceeded"⟩, "dev", "dn"⟩
      ⟨"hello", some "https://x", none, none, some 5⟩ "id1" 99 [] rfl).2.1 rfl rfl,
   (c1_capture_pending_fallback ⟨true, false, ⟨false, none, none⟩, "dev", "dn"⟩
      ⟨"hello", some "https://x", none, none, some 5⟩ "id1" 99 [] rfl).2.2.1⟩

/-- C5: a successful `performUpload` adds the content fingerprint to the
recently-uploaded guard, and while the fingerprint is in the guard (its
TTL not yet expired) a second `uploadClipboardItem` call with identical
content returns `success = false` with the duplicate-loop-prevention
error, leaves the state untouched and makes no remote call at all. -/
theorem c5_upload_loop_prevention (content : String) (env env2 : PerformEnv)
    (s s2 : SyncState) (calls : List RemoteCall) (r : UploadResult)
    (skipDb : Bool) (now : Int)
    (hne : content.data.all isJsSpace = false)
    (hrun : performUpload content (hashContent content) env s = (r, s2, calls))
    (hsucc : r.success = true) :
    hashContent content ∈ s2.recentlyUploaded
  ∧ uploadClipboardItem content skipDb now env2 s2 =
      (.immediate ⟨false, none, some "Duplicate content (upload loop prevention)"⟩, s2, []) := by
  have hmem : hashContent content ∈ s2.recentlyUploaded := by
    unfold performUpload at hrun
    cases hs : env.session with
    | none =>
      rw [hs] at hrun
      simp at hrun
      obtain ⟨h1, -, -⟩ := hrun
      rw [← h1] at hsucc
      simp at hsucc
    | some u =>
      rw [hs] at hrun
      by_cases hd : env.dupExists
      · simp [hd] at hrun
        obtain ⟨h1, -, -⟩ := hrun
        rw [← h1] at hsucc
        simp at hsucc
      · simp only [hd, if_false, Bool.false_eq_true] at hrun
        cases hres : (retryWithBackoff env.insertResult RETRY_ATTEMPTS).result with
        | ok item =>
          rw [hres] at hrun
          simp at hrun
          obtain ⟨-, h2, -⟩ := hrun
          rw [← h2]
          exact List.mem_cons_self _ _
        | error e =>
          rw [hres] at hrun
          simp at hrun
          obtain ⟨h1, -, -⟩ := hrun
          rw [← h1] at hsucc
          simp at hsucc
  refine ⟨hmem, ?_⟩
  unfold uploadClipboardItem
  simp [hne, hmem]

/-- Witness for C5: a concrete successful upload followed by a second
call with the same content, which is rejected with no remote call. -/
theorem c5_witness :
    hashContent "hello" ∈ (performUpload "hello" (hashContent "hello")
        ⟨some "u", "d", "n", false, fun _ => .ok ⟨"i1", "hello", "o", "", 5, false, "d", "n"⟩⟩
        ⟨[], ⟨0, 0⟩⟩).2.1.recentlyUploaded
  ∧ uploadClipboardItem "hello" true 0
        ⟨some "u2", "d2", "n2", true, fun _ => .error ⟨"boom", none⟩⟩
        (performUpload "hello" (hashContent "hello")
          ⟨some "u", "d", "n", false, fun _ => .ok ⟨"i1", "hello", "o", "", 5, false, "d", "n"⟩⟩
          ⟨[], ⟨0, 0⟩⟩).2.1 =
      (.immediate ⟨false, none, some "Duplicate content (upload loop prevention)"⟩,
       (performUpload "hello" (hashContent "hello")
          ⟨some "u", "d", "n", false, fun _ => .ok ⟨"i1", "hello", "o", "", 5, false, "d", "n"⟩⟩
          ⟨[], ⟨0, 0⟩⟩).2.1, []) :=
  c5_upload_loop_prevention "hello"
    ⟨some "u", "d", "n", false, fun _ => .ok ⟨"i1", "hello", "o", "", 5, false, "d", "n"⟩⟩
    ⟨some "u2", "d2", "n2", true, fun _ => .error ⟨"boom", none⟩⟩
    ⟨[], ⟨0, 0⟩⟩ _ _ _ true 0 (by decide) rfl (by decide)

/-- Helper: one event-loop step can neither attach a detached promise to
a timer nor resolve it. -/
theorem promiseDetached_step (p : Nat) (s : DebounceState) (e : DebounceEvent)
    (h : promiseDetached p s) : promiseDetached p (debounceStep s e) := by
  obtain ⟨htimers, hres, hlt⟩ := h
  cases e with
  | sched hsh =>
    refine ⟨?_, hres, ?_⟩
    · intro t ht
      simp only [debounceStep, scheduleDebounced, List.mem_cons] at ht
      rcases ht with hhead | htail
      · rw [hhead]
        simp only [Prod.snd]
        omega
      · exact htimers t (List.mem_of_mem_filter htail)
    · simp only [debounceStep, scheduleDebounced]
      omega
  | fire tid =>
    simp only [debounceStep, fireTimer]
    cases hf : s.timers.find? (fun t => t.1 == tid) with
    | none => exact ⟨htimers, hres, hlt⟩
    | some t =>
      refine ⟨fun u hu => htimers u (List.mem_of_mem_filter hu), ?_, hlt⟩
      intro hp
      rcases List.mem_cons.mp hp with hp1 | hp2
      · exact htimers t (List.mem_of_find?_eq_some hf) hp1.symm
      · exact hres hp2
  | clearAllTimers =>
    exact ⟨by simp [debounceStep], hres, hlt⟩

/-- Helper: a detached promise stays detached through any sequence of
event-loop events. -/
theorem promiseDetached_run (events : List DebounceEvent) (p : Nat)
    (s : DebounceState) (h : promiseDetached p s) :
    promiseDetached p (runDebounce events s) := by
  induction events generalizing s with
  | nil => exact h
  | cons e es ih => exact ih (debounceStep s e) (promiseDetached_step p s e h)

/-- C10: when a debounced upload call is superseded by a later call with
the same content fingerprint before its timer fires, the superseded
call's promise is detached — its timer is cleared, no pending timer
carries it — and no sequence of subsequent event-loop events (further
uploads, timer firings, `clearPendingUploads`) ever resolves it: the
superseded caller never receives any result. -/
theorem c10_superseded_debounce_never_resolves (s0 : DebounceState) (hsh : String)
    (events : List DebounceEvent)
    (hwt : ∀ t ∈ s0.timers, t.2.2 < s0.nextPromiseId)
    (hwr : ∀ q ∈ s0.resolved, q < s0.nextPromiseId) :
    (∀ t ∈ (scheduleDebounced hsh (scheduleDebounced hsh s0).2).2.timers,
      t.2.2 ≠ (scheduleDebounced hsh s0).1)
  ∧ (scheduleDebounced hsh s0).1 ∉
      (runDebounce events (scheduleDebounced hsh (scheduleDebounced hsh s0).2).2).resolved := by
  have hdet : promiseDetached (scheduleDebounced hsh s0).1
      (scheduleDebounced hsh (scheduleDebounced hsh s0).2).2 := by
    refine ⟨?_, ?_, ?_⟩
    · intro t ht
      simp only [scheduleDebounced, clearTimerFor, List.mem_cons] at ht
      rcases ht with hhead | htail
      · rw [hhead]
        simp [scheduleDebounced]
      · have h1 := List.mem_of_mem_filter htail
        rcases List.mem_cons.mp h1 with hh | ht2
        · exfalso
          have := List.of_mem_filter htail
          rw [hh] at this
          simp at this
        · have := hwt t (List.mem_of_mem_filter ht2)
          simp only [scheduleDebounced]
          omega
    · intro hp
      have := hwr _ hp
      simp only [scheduleDebounced] at this
      omega
    · simp only [scheduleDebounced]
      omega
  exact ⟨hdet.1, fun hp => (promiseDetached_run events _ _ hdet).2.1 hp⟩

/-- Witness for C10: from the empty event loop, two debounced calls with
the same fingerprint followed by firing both timer ids never resolve the
first call's promise. -/
theorem c10_witness :
    (scheduleDebounced "h" ⟨[], 0, 0, []⟩).1 ∉
      (runDebounce [.fire 0, .fire 1]
        (scheduleDebounced "h" (scheduleDebounced "h" ⟨[], 0, 0, []⟩).2).2).resolved :=
  (c10_superseded_debounce_never_resolves ⟨[], 0, 0, []⟩ "h" [.fire 0, .fire 1]
    (by simp) (by simp)).2

/-- Helper: in a list whose mapped ids are nodup, two members with the
same id are the same item. -/
theorem eq_of_mem_of_nodup_ids (l : List Item) (hnd : (l.map Item.id).Nodup) :
    ∀ x ∈ l, ∀ y ∈ l, x.id = y.id → x = y := by
  induction l with
  | nil => intro x hx; cases hx
  | cons a t ih =>
    rw [List.map_cons, List.nodup_cons] at hnd
    intro x hx y hy hid
    rcases List.mem_cons.mp hx with rfl | hxt
    · rcases List.mem_cons.mp hy with rfl | hyt
      · rfl
      · exfalso
        apply hnd.1
        rw [hid]
        exact List.mem_map_of_mem Item.id hyt
    · rcases List.mem_cons.mp hy with rfl | hyt
      · exfalso
        apply hnd.1
        rw [← hid]
        exact List.mem_map_of_mem Item.id hxt
      · exact ih hnd.2 x hxt y hyt hid

/-- Helper: inserting a list of items with fresh, pairwise-distinct ids
into the map just appends them in order. -/
theorem foldl_jsMapSet_eq_append (l : List Item) :
    ∀ acc : List Item, (∀ it ∈ l, ∀ j ∈ acc, j.id ≠ it.id) →
    (l.map Item.id).Nodup → l.foldl jsMapSet acc = acc ++ l := by
  induction l with
  | nil => intro acc _ _; simp
  | cons a t ih =>
    intro acc hfresh hnd
    rw [List.map_cons, List.nodup_cons] at hnd
    have hany : (acc.any fun j => j.id == a.id) = false := by
      rw [List.any_eq_false]
      intro j hj
      simpa using hfresh a (List.mem_cons_self a t) j hj
    have hstep : jsMapSet acc a = acc ++ [a] := by
      unfold jsMapSet
      rw [hany]
      simp
    rw [List.foldl_cons, hstep, ih (acc ++ [a]) ?_ hnd.2]
    · simp
    · intro it hit j hj
      rcases List.mem_append.mp hj with hja | hja1
      · exact hfresh it (List.mem_cons_of_mem a hit) j hja
      · have hj_eq : j = a := by simpa using hja1
        subst hj_eq
        intro hideq
        apply hnd.1
        rw [hideq]
        exact List.mem_map_of_mem Item.id hit

/-- Helper: the cached-item step either keeps the map or appends the
item (when its id is fresh and it is pending). -/
theorem cachedFoldStep_cases (m : List Item) (it : Item) :
    cachedFoldStep m it = m ∨ cachedFoldStep m it = m ++ [it] := by
  unfold cachedFoldStep
  split
  case isTrue h =>
    right
    unfold jsMapSet
    have h1 : (m.any fun j => j.id == it.id) = false := h.1
    rw [h1]
    simp
  case isFalse h => left; rfl

/-- Helper: an element of the cached-item step comes from the map or is
the (pending, fresh-id) item itself. -/
theorem cachedFoldStep_sub (m : List Item) (it x : Item)
    (hx : x ∈ cachedFoldStep m it) :
    x ∈ m ∨ (x = it ∧ it.pending = true ∧ jsMapHas m it.id = false) := by
  unfold cachedFoldStep at hx
  split at hx
  case isTrue hcond =>
    unfold jsMapSet at hx
    have h1 : (m.any fun j => j.id == it.id) = false := hcond.1
    rw [h1] at hx
    simp only [Bool.false_eq_true, if_false] at hx
    rcases List.mem_append.mp hx with hm | hx1
    · exact Or.inl hm
    · exact Or.inr ⟨by simpa using hx1, hcond.2, hcond.1⟩
  case isFalse h => exact Or.inl hx

/-- Helper: the cached-item step preserves key presence. -/
theorem jsMapHas_cachedFoldStep (m : List Item) (it : Item) (i : String)
    (h : jsMapHas m i = true) : jsMapHas (cachedFoldStep m it) i = true := by
  rcases cachedFoldStep_cases m it with he | he
  · rw [he]; exact h
  · rw [he]
    unfold jsMapHas at h ⊢
    rw [List.any_append, h]
    rfl

/-- Helper: the cached-item step preserves membership. -/
theorem mem_cachedFoldStep (m : List Item) (it x : Item) (h : x ∈ m) :
    x ∈ cachedFoldStep m it := by
  rcases cachedFoldStep_cases m it with he | he
  · rw [he]; exact h
  · rw [he]; exact List.mem_append_left _ h

/-- Helper: the cached-item fold preserves membership of the map. -/
theorem mem_cachedFold (l : List Item) :
    ∀ acc x, x ∈ acc → x ∈ l.foldl cachedFoldStep acc := by
  induction l with
  | nil => intro acc x h; simpa using h
  | cons a t ih =>
    intro acc x h
    rw [List.foldl_cons]
    exact ih _ x (mem_cachedFoldStep acc a x h)

/-- Helper: a pending cached item whose id is fresh for the map (and for
the other cached items) ends up in the fold. -/
theorem cachedFold_adds (l : List Item) :
    ∀ acc (c : Item), c ∈ l → c.pending = true →
    (∀ j ∈ acc, j.id ≠ c.id) → (l.map Item.id).Nodup →
    c ∈ l.foldl cachedFoldStep acc := by
  induction l with
  | nil => intro acc c hc; cases hc
  | cons a t ih =>
    intro acc c hc hp hfresh hnd
    rw [List.map_cons, List.nodup_cons] at hnd
    rcases List.mem_cons.mp hc with rfl | hct
    · have hhas : jsMapHas acc c.id = false := by
        unfold jsMapHas
        rw [List.any_eq_false]
        intro j hj
        simpa using hfresh j hj
      have hstep : cachedFoldStep acc c = acc ++ [c] := by
        unfold cachedFoldStep
        rw [if_pos ⟨hhas, hp⟩]
        unfold jsMapSet
        have h1 : (acc.any fun j => j.id == c.id) = false := hhas
        rw [h1]
        simp
      rw [List.foldl_cons, hstep]
      exact mem_cachedFold t _ c (List.mem_append_right _ (List.mem_singleton.mpr rfl))
    · rw [List.foldl_cons]
      apply ih (cachedFoldStep acc a) c hct hp ?_ hnd.2
      intro j hj
      rcases cachedFoldStep_cases acc a with he | he
      · rw [he] at hj; exact hfresh j hj
      · rw [he] at hj
        rcases List.mem_append.mp hj with hja | hja1
        · exact hfresh j hja
        · have hj_eq : j = a := by simpa using hja1
          subst hj_eq
          intro hideq
          apply hnd.1
          rw [hideq]
          exact List.mem_map_of_mem Item.id hct

/-- Helper: every element of the cached-item fold is in the map or is a
pending cached item whose id was absent from the map. -/
theorem cachedFold_sub (l : List Item) :
    ∀ acc x, x ∈ l.foldl cachedFoldStep acc →
    x ∈ acc ∨ (x ∈ l ∧ x.pending = true ∧ jsMapHas acc x.id = false) := by
  induction l with
  | nil => intro acc x h; exact Or.inl (by simpa using h)
  | cons a t ih =>
    intro acc x h
    rw [List.foldl_cons] at h
    rcases ih (cachedFoldStep acc a) x h with hstep | ⟨hxt, hp, hhas⟩
    · rcases cachedFoldStep_sub acc a x hstep with hacc | ⟨rfl, hp, hhas⟩
      · exact Or.inl hacc
      · exact Or.inr ⟨List.mem_cons_self _ _, hp, hhas⟩
    · right
      refine ⟨List.mem_cons_of_mem a hxt, hp, ?_⟩
      cases hb : jsMapHas acc x.id
      · rfl
      · rw [jsMapHas_cachedFoldStep acc a x.id hb] at hhas
        cases hhas

/-- C4: with well-formed inputs (pairwise-distinct server ids and
pairwise-distinct cached ids, the database/visible-set invariant), the
merge contains every server item; a cached item sharing its id with a
different server item never appears (the server item wins); a cached
item whose id is absent from the server list appears exactly when it is
pending; and the output is sorted by `created_at` descending. -/
theorem c4_merge_semantics (server cached : List Item)
    (hs : (server.map Item.id).Nodup) (hc : (cached.map Item.id).Nodup) :
    (∀ it ∈ server, it ∈ mergeWithLocalCache server cached)
  ∧ (∀ c ∈ cached, (∃ it ∈ server, it.id = c.id ∧ it ≠ c) →
      c ∉ mergeWithLocalCache server cached)
  ∧ (∀ c ∈ cached, (∀ it ∈ server, it.id ≠ c.id) →
      (c ∈ mergeWithLocalCache server cached ↔ c.pending = true))
  ∧ (mergeWithLocalCache server cached).Sorted createdDesc := by
  have hbase : server.foldl jsMapSet [] = server := by
    simpa using foldl_jsMapSet_eq_append server [] (by simp) hs
  unfold mergeWithLocalCache
  rw [hbase]
  refine ⟨?_, ?_, ?_, List.sorted_insertionSort createdDesc _⟩
  · intro it hit
    rw [List.mem_insertionSort]
    exact mem_cachedFold cached server it hit
  · intro c hcmem hex
    obtain ⟨it0, hit0, hid0, hne0⟩ := hex
    rw [List.mem_insertionSort]
    intro hmem
    rcases cachedFold_sub cached server c hmem with hserver | ⟨-, -, hhas⟩
    · exact hne0 (eq_of_mem_of_nodup_ids server hs it0 hit0 c hserver hid0)
    · have hhas2 : jsMapHas server c.id = true := by
        unfold jsMapHas
        rw [List.any_eq_true]
        exact ⟨it0, hit0, by simp [hid0]⟩
      rw [hhas2] at hhas
      cases hhas
  · intro c hcmem hfresh
    rw [List.mem_insertionSort]
    constructor
    · intro hmem
      rcases cachedFold_sub cached server c hmem with hserver | ⟨-, hp, -⟩
      · exact absurd rfl (hfresh c hserver)
      · exact hp
    · intro hp
      exact cachedFold_adds cached server c hcmem hp (fun j hj => hfresh j hj) hc

/-- Witness for C4 at a concrete server list and cache. -/
theorem c4_witness :
    (⟨"1", "server", "o", "", 10, false, "d", "n"⟩ : Item) ∈
      mergeWithLocalCache [⟨"1", "server", "o", "", 10, false, "d", "n"⟩]
        [⟨"2", "pending", "o", "", 20, true, "d", "n"⟩]
  ∧ ((⟨"2", "pending", "o", "", 20, true, "d", "n"⟩ : Item) ∈
      mergeWithLocalCache [⟨"1", "server", "o", "", 10, false, "d", "n"⟩]
        [⟨"2", "pending", "o", "", 20, true, "d", "n"⟩] ↔
      (⟨"2", "pending", "o", "", 20, true, "d", "n"⟩ : Item).pending = true)
  ∧ (mergeWithLocalCache [⟨"1", "server", "o", "", 10, false, "d", "n"⟩]
      [⟨"2", "pending", "o", "", 20, true, "d", "n"⟩]).Sorted createdDesc :=
  ⟨(c4_merge_semantics _ _ (by decide) (by decide)).1 _ (by simp),
   (c4_merge_semantics _ _ (by decide) (by decide)).2.2.1 _ (by simp) (by decide),
   (c4_merge_semantics _ _ (by decide) (by decide)).2.2.2⟩

/-- Helper: prepending an item that is at least as recent as everything
cached, then capping, preserves descending sortedness. -/
theorem sorted_prependCapped (item : Item) (cached : List Item)
    (hs : cached.Sorted createdDesc)
    (hle : ∀ j ∈ cached, j.created_at ≤ item.created_at) :
    (prependCapped item cached).Sorted createdDesc := by
  unfold prependCapped
  apply List.Pairwise.sublist (List.take_sublist _ _)
  rw [List.pairwise_cons]
  constructor
  · intro j hj
    exact hle j (List.mem_of_mem_filter hj)
  · exact List.Pairwise.filter _ hs

/-- Helper: the 51 server ids are pairwise distinct. -/
theorem c8Server_ids_nodup : (c8Server.map Item.id).Nodup := by
  have hmap : c8Server.map Item.id =
      (List.range 51).map (fun i => String.mk (List.replicate i (Char.ofNat 97))) := by
    simp [c8Server, List.map_map, Function.comp]
  rw [hmap]
  apply List.Nodup.map_on ?_ (List.nodup_range 51)
  intro x _ y _ hxy
  have hdata : List.replicate x (Char.ofNat 97) = List.replicate y (Char.ofNat 97) :=
    congrArg String.data hxy
  have hlen := congrArg List.length hdata
  simpa using hlen

/-- Counterexample to C8 as stated: `addPendingCachedItem` prepends
without sorting, so a pending payload with a timestamp older than the
cached head leaves the stored list unsorted; and `mergeWithLocalCache`
does not cap its result, so 51 distinct server items produce a list
longer than `MAX_ITEMS`. -/
theorem c8_counterexample :
    ¬ ((addPendingCachedItem ⟨"new", none, none, none, some 50⟩ "b" 999 "dev" "dn"
        [⟨"a", "x", "o", "", 100, false, "d", "n"⟩]).2.Sorted createdDesc)
  ∧ ¬ ((mergeWithLocalCache c8Server []).length ≤ MAX_ITEMS) := by
  constructor
  · intro h
    have heq : (addPendingCachedItem ⟨"new", none, none, none, some 50⟩ "b" 999 "dev" "dn"
        [⟨"a", "x", "o", "", 100, false, "d", "n"⟩]).2 =
        [⟨"b", "new", "unknown", "", 50, true, "dev", "dn"⟩,
         ⟨"a", "x", "o", "", 100, false, "d", "n"⟩] := by decide
    rw [heq] at h
    have h1 := (List.pairwise_cons.mp h).1 _ (List.mem_cons_self _ _)
    simp only [createdDesc] at h1
    omega
  · intro h
    have hnd : (c8Server.map Item.id).Nodup := c8Server_ids_nodup
    have hlen : (mergeWithLocalCache c8Server []).length = 51 := by
      unfold mergeWithLocalCache
      rw [List.length_insertionSort]
      rw [show ([] : List Item).foldl cachedFoldStep (c8Server.foldl jsMapSet []) =
            c8Server.foldl jsMapSet [] from rfl]
      rw [foldl_jsMapSet_eq_append c8Server [] (by simp) hnd]
      rfl
    rw [hlen] at h
    simp [MAX_ITEMS] at h

/-- C8 amended (as forced by the counterexample): the insert-style cache
writes (`addPendingCachedItem`, the realtime-INSERT handler) always cap
the stored list at `MAX_ITEMS`, and they preserve descending
`created_at` order provided the inserted record is at least as recent as
everything cached; `mergeWithLocalCache` always returns a list sorted by
`created_at` descending, but its length is not capped at `MAX_ITEMS`. -/
theorem c8_cache_write_amended (p : Payload) (freshId : String) (now : Int)
    (dId dName : String) (item : Item) (cached server : List Item) :
    ((addPendingCachedItem p freshId now dId dName cached).2.length ≤ MAX_ITEMS
  ∧ (realtimeInsertUpdate item cached).length ≤ MAX_ITEMS)
  ∧ (cached.Sorted createdDesc → (∀ j ∈ cached, j.created_at ≤ item.created_at) →
      (realtimeInsertUpdate item cached).Sorted createdDesc)
  ∧ (cached.Sorted createdDesc →
      (∀ j ∈ cached, j.created_at ≤ (mkPendingItem p freshId now dId dName).created_at) →
      (addPendingCachedItem p freshId now dId dName cached).2.Sorted createdDesc)
  ∧ (mergeWithLocalCache server cached).Sorted createdDesc := by
  refine ⟨⟨?_, ?_⟩, ?_, ?_, ?_⟩
  · rw [show (addPendingCachedItem p freshId now dId dName cached).2 =
        prependCapped (mkPendingItem p freshId now dId dName) cached from rfl]
    unfold prependCapped
    rw [List.length_take]
    exact min_le_left _ _
  · unfold realtimeInsertUpdate prependCapped
    rw [List.length_take]
    exact min_le_left _ _
  · intro hs hle
    exact sorted_prependCapped item cached hs hle
  · intro hs hle
    exact sorted_prependCapped _ cached hs hle
  · unfold mergeWithLocalCache
    exact List.sorted_insertionSort createdDesc _

/-- Witness for C8 (amended) at concrete inputs. -/
theorem c8_witness :
    (addPendingCachedItem ⟨"w", none, none, none, some 500⟩ "f" 0 "d" "n"
      [⟨"a", "x", "o", "", 100, false, "d", "n"⟩]).2.length ≤ MAX_ITEMS
  ∧ (realtimeInsertUpdate ⟨"r", "y", "o", "", 300, false, "d", "n"⟩
      [⟨"a", "x", "o", "", 100, false, "d", "n"⟩]).Sorted createdDesc
  ∧ (addPendingCachedItem ⟨"w", none, none, none, some 500⟩ "f" 0 "d" "n"
      [⟨"a", "x", "o", "", 100, false, "d", "n"⟩]).2.Sorted createdDesc
  ∧ (mergeWithLocalCache [⟨"s", "z", "o", "", 7, false, "d", "n"⟩] []).Sorted createdDesc :=
  ⟨(c8_cache_write_amended ⟨"w", none, none, none, some 500⟩ "f" 0 "d" "n"
      ⟨"r", "y", "o", "", 300, false, "d", "n"⟩
      [⟨"a", "x", "o", "", 100, false, "d", "n"⟩] []).1.1,
   (c8_cache_write_amended ⟨"w", none, none, none, some 500⟩ "f" 0 "d" "n"
      ⟨"r", "y", "o", "", 300, false, "d", "n"⟩
      [⟨"a", "x", "o", "", 100, false, "d", "n"⟩] []).2.1
      (by simp) (by decide),
   (c8_cache_write_amended ⟨"w", none, none, none, some 500⟩ "f" 0 "d" "n"
      ⟨"r", "y", "o", "", 300, false, "d", "n"⟩
      [⟨"a", "x", "o", "", 100, false, "d", "n"⟩] []).2.2.1
      (by simp) (by decide),
   (c8_cache_write_amended ⟨"w", none, none, none, some 500⟩ "f" 0 "d" "n"
      ⟨"r", "y", "o", "", 300, false, "d", "n"⟩
      [⟨"a", "x", "o", "", 100, false, "d", "n"⟩]
      [⟨"s", "z", "o", "", 7, false, "d", "n"⟩]).2.2.2⟩

/-- C7: the claim that each matching category contributes its tag
exactly once fails on the code for the payment-card category — the
source pushes `credit_card` once per validated match (its own test
suite's copy of the function, and the sibling password branch, guard the
push with a containment check): a capture holding two valid card numbers
yields the tag twice. -/
theorem c7_credit_card_tag_duplicated :
    (redactSensitiveData "4532015112830366 5425233430109903").redactionTypes =
      ["credit_card", "credit_card"] := by decide

/-- Helper: joining the literal segmentation of a string recovers it. -/
theorem segsJoin_map_lit (s : List Char) : segsJoin (s.map Seg.lit) = s := by
  induction s with
  | nil => rfl
  | cons c cs ih =>
    show segChars (Seg.lit c) ++ segsJoin (cs.map Seg.lit) = c :: cs
    rw [ih]
    rfl

/-- Helper: `segsJoin` of a cons. -/
theorem segsJoin_cons (x : Seg) (l : List Seg) :
    segsJoin (x :: l) = segChars x ++ segsJoin l := rfl

/-- Helper: the global scan is a segmentation of its input — joining the
segments gives the input back, for every fuel. -/
theorem segsJoin_gscanF (m : Option Char → List Char → Option Nat) :
    ∀ (fuel : Nat) (prev : Option Char) (s : List Char),
    segsJoin (gscanF m fuel prev s) = s := by
  intro fuel
  induction fuel with
  | zero => intro prev s; exact segsJoin_map_lit s
  | succ fuel ih =>
    intro prev s
    cases s with
    | nil => rfl
    | cons c cs =>
      unfold gscanF
      cases hm : m prev (c :: cs) with
      | none =>
        rw [segsJoin_cons, ih]
        rfl
      | some n =>
        dsimp only
        by_cases hn : 0 < n
        · rw [if_pos hn, segsJoin_cons, ih]
          exact List.take_append_drop n (c :: cs)
        · rw [if_neg hn, segsJoin_cons, ih]
          rfl

/-- Helper: when every match of the card scan fails validation, the card
stage replaces nothing and produces no tag. -/
theorem ccApply_of_all_invalid (s : List Char)
    (h : ∀ cs ∈ matchesOf matchCC s, isValidCreditCardFormat (stripSeps cs) = false) :
    ccApply s = (s, []) := by
  unfold ccApply
  have hcong : ∀ seg ∈ gscan matchCC s, (fun seg => match seg with
      | Seg.lit c => Seg.lit c
      | Seg.matched cs =>
        Seg.matched (if isValidCreditCardFormat (stripSeps cs) then REPLACEMENT else cs)) seg
      = seg := by
    intro seg hseg
    cases seg with
    | lit c => rfl
    | matched cs =>
      have hcs : cs ∈ matchesOf matchCC s :=
        List.mem_filterMap.mpr ⟨Seg.matched cs, hseg, rfl⟩
      simp [h cs hcs]
  apply Prod.ext
  · show segsJoin _ = s
    rw [List.map_congr_left hcong, List.map_id']
    exact segsJoin_gscanF matchCC s.length none s
  · show List.filterMap _ _ = []
    rw [List.filterMap_eq_nil_iff]
    intro seg hseg
    cases seg with
    | lit c => rfl
    | matched cs =>
      have hcs : cs ∈ matchesOf matchCC s :=
        List.mem_filterMap.mpr ⟨Seg.matched cs, hseg, rfl⟩
      simp [h cs hcs]

/-- Helper: the password loop only ever appends the `password` tag, so
it cannot introduce any other tag. -/
theorem pwFold_no_new_tag (ks : List KeySpec) :
    ∀ (s : List Char) (types : List String) (x : String),
    x ∉ types → x ≠ "password" → x ∉ (ks.foldl pwStep (s, types)).2 := by
  induction ks with
  | nil => intro s types x hx _; simpa using hx
  | cons k ks ih =>
    intro s types x hx hne
    rw [List.foldl_cons]
    have hstep : (pwStep (s, types) k).2 = types ∨
        (pwStep (s, types) k).2 = types ++ ["password"] := by
      have hunf : pwStep (s, types) k =
          (if hasMatchIn (matchKV k) s then
            (globalReplace (matchKV k) (fun _ => REPLACEMENT) s,
              if types.contains "password" then types else types ++ ["password"])
          else (s, types)) := rfl
      rw [hunf]
      by_cases hm : hasMatchIn (matchKV k) s
      · rw [if_pos hm]
        by_cases hcont : types.contains "password"
        · rw [if_pos hcont]
          exact Or.inl rfl
        · rw [if_neg hcont]
          exact Or.inr rfl
      · rw [if_neg hm]
        exact Or.inl rfl
    have hx2 : x ∉ (pwStep (s, types) k).2 := by
      rcases hstep with he | he <;> rw [he]
      · exact hx
      · intro hmem
        rcases List.mem_append.mp hmem with h1 | h1
        · exact hx h1
        · exact hne (by simpa using h1)
    exact ih (pwStep (s, types) k).1 (pwStep (s, types) k).2 x hx2 hne

set_option maxHeartbeats 1000000 in
/-- C9: for a capture whose card-pattern matches (in the text the card
stage actually scans, the SSN-redacted content) all fail validation —
repeated-digit runs, Luhn-failing numbers, out-of-range lengths — the
payment-card tag is never produced and the card stage leaves the text
unchanged (those sequences are not redacted). -/
theorem c9_luhn_reject_no_cc (content : String)
    (h : ∀ cs ∈ matchesOf matchCC (ssnStage content.toList),
        isValidCreditCardFormat (stripSeps cs) = false) :
    "credit_card" ∉ (redactSensitiveData content).redactionTypes
  ∧ (ccApply (ssnStage content.toList)).1 = ssnStage content.toList := by
  have hcc := ccApply_of_all_invalid (ssnStage content.toList) h
  refine ⟨?_, by rw [hcc]⟩
  have hstage : redactStage2 content.toList =
      (ssnStage content.toList, ssnTags content.toList) := by
    show (if hasMatchIn matchCC content.toList then
        ((ccApply (ssnStage content.toList)).1,
          ssnTags content.toList ++ (ccApply (ssnStage content.toList)).2)
      else (ssnStage content.toList, ssnTags content.toList)) =
      (ssnStage content.toList, ssnTags content.toList)
    by_cases hcct : hasMatchIn matchCC content.toList
    · rw [if_pos hcct, hcc, List.append_nil]
    · rw [if_neg hcct]
  simp only [redactSensitiveData]
  rw [hstage]
  apply pwFold_no_new_tag
  · unfold ssnTags
    by_cases hssn : hasMatchIn matchSSN content.toList
    · simp [hssn]
    · simp [hssn]
  · decide

/-- Witness for C9: a Luhn-failing 16-digit number is neither tagged nor
redacted. -/
theorem c9_witness :
    "credit_card" ∉ (redactSensitiveData "Invalid: 1234567890123456").redactionTypes
  ∧ (ccApply (ssnStage "Invalid: 1234567890123456".toList)).1 =
      ssnStage "Invalid: 1234567890123456".toList :=
  c9_luhn_reject_no_cc "Invalid: 1234567890123456" (by decide)
